import Mathlib

/-!
Shallow embedding of the motion-detection / storage-lifecycle core of
`security_camera.py` (class `SecurityCamera`), together with proofs of the
behavioural properties stated in the specification.

Conventions of the embedding:
* instants are modelled as `Int` seconds (`time.time()` and `datetime` values
  are placed on one common timeline; a parsed `YYYYMMDD` date is the midnight
  instant `86400 * (days since 1970-01-01)`);
* filenames are `List Char` (the contents of the Python `str`);
* side effects (saving the evidence frame, sending a Telegram text or photo,
  bumping the event counter) are recorded in an explicit action trace;
* a Python operation that may raise is given an explicit success flag
  (`openOk` for `open(image_path)`); operations whose bodies are wrapped in
  their own `try/except` (the two Telegram send helpers) never propagate an
  exception and are therefore total in the model.
-/

namespace SecCam

/-! ## Alert gate state (src lines 36-40, 305-313) -/

/-- The cooldown/hysteresis state of the alert gate:
`self.motion_detected` and `self.last_notification_time`
(initialised to `False` and `0`). -/
structure GateState where
  motionDetected : Bool
  lastNotificationTime : Int
deriving DecidableEq

/-- `self.notification_cooldown = 60` (seconds). -/
def notificationCooldown : Int := 60

/-- Initial gate state: `motion_detected = False`, `last_notification_time = 0`. -/
def initGate : GateState := ⟨false, 0⟩

/-- One frame's worth of the gate logic at the bottom of `_camera_loop`
(src lines 305-313): fires exactly when the raw signal is true, the latch
`motion_detected` is off, and strictly more than the cooldown has elapsed
since `last_notification_time`; on fire the latch is set and the
fire time recorded.  A false raw signal clears the latch.  Returns the
updated state and whether an event fired on this frame. -/
def gateStep (s : GateState) (t : Int) (motion : Bool) : GateState × Bool :=
  if motion ∧ ¬s.motionDetected ∧
      notificationCooldown < t - s.lastNotificationTime then
    ({ motionDetected := true, lastNotificationTime := t }, true)
  else if ¬motion then
    ({ s with motionDetected := false }, false)
  else
    (s, false)

/-- Fold `gateStep` over a sequence of `(time, raw signal)` frames, collecting
the times at which events fired, in order. -/
def gateRun (s : GateState) : List (Int × Bool) → GateState × List Int
  | [] => (s, [])
  | (t, m) :: rest =>
    let p := gateStep s t m
    let r := gateRun p.1 rest
    (r.1, if p.2 then t :: r.2 else r.2)

/-! ## Event handling and the camera loop (src lines 257-324) -/

/-- An abstract captured frame.  The claims never inspect pixel data. -/
abbrev Frame := Nat

/-- Tags distinguishing the text messages the system can send. -/
inductive MsgTag where
  | motionAlert
  | photoError
  | armConf
  | disarmConf
  | statusReport
  | storageReport
deriving DecidableEq

/-- Observable side effects of the event/command paths, in program order:
persisting the evidence frame (`cv2.imwrite`), sending a text, sending a
photo, and the `events_today += 1` update (recorded in the trace so that its
position relative to the other effects is provable). -/
inductive Act where
  | saveImage
  | sendText (tag : MsgTag)
  | sendPhoto
  | incrEvents
deriving DecidableEq

/-- The shared counters of `SystemState` touched by the event path:
`self.events_today` and `self.last_event_time`. -/
structure SysState where
  eventsToday : Nat
  lastEventTime : Option Int
deriving DecidableEq

/-- `send_telegram_notification` (src lines 257-270).  The whole body sits in
one `try/except`: it sends the text alert (`send_telegram_message` catches its
own network errors), opens the evidence file — the one statement in the body
that can raise, modelled by `openOk = false` —, sends the photo
(`_send_telegram_photo` likewise catches its own errors), and only then
increments `events_today` and sets `last_event_time`.  If `open` raises, the
`except` swallows the exception after the text alert was already attempted,
and the counter update never happens. -/
def sendTelegramNotification (s : SysState) (now : Int) (openOk : Bool) :
    SysState × List Act :=
  if openOk then
    (⟨s.eventsToday + 1, some now⟩,
     [Act.sendText MsgTag.motionAlert, Act.sendPhoto, Act.incrEvents])
  else
    (s, [Act.sendText MsgTag.motionAlert])

/-- `_handle_motion_detection` (src lines 315-324): write the evidence frame
(`cv2.imwrite` reports failure through its return value, which the code
ignores, and does not raise for an I/O failure), then run
`send_telegram_notification`. -/
def handleMotionDetection (s : SysState) (now : Int) (openOk : Bool) :
    SysState × List Act :=
  let r := sendTelegramNotification s now openOk
  (r.1, Act.saveImage :: r.2)

/-- Everything `_camera_loop` consumes while processing one frame:
the camera read result (`none` models `ret` being falsy), the current value of
the shared `is_armed` flag, the boolean produced by the background-subtraction
pipeline for this frame, the current `time.time()`, and whether opening the
just-written evidence file succeeds on this frame's event path. -/
structure FrameInput where
  read : Option Frame
  armed : Bool
  motion : Bool
  time : Int
  openOk : Bool
deriving DecidableEq

/-- State owned by the camera loop: the alert gate, the shared counters and
the latest-frame buffer `self.frame`. -/
structure CamState where
  gate : GateState
  sys : SysState
  frameBuf : Option Frame
deriving DecidableEq

/-- One iteration of `_camera_loop` (src lines 278-313).  `none` means the
loop `break`s because the camera read failed; otherwise the frame is stored in
the buffer, detection is skipped when disarmed, and the gate decides whether
to run `_handle_motion_detection`. -/
def cameraStep (cam : CamState) (inp : FrameInput) : Option (CamState × List Act) :=
  match inp.read with
  | none => none
  | some fr =>
    let cam2 : CamState := { cam with frameBuf := some fr }
    if inp.armed then
      let p := gateStep cam2.gate inp.time inp.motion
      if p.2 then
        let r := handleMotionDetection cam2.sys inp.time inp.openOk
        some ({ cam2 with gate := p.1, sys := r.1 }, r.2)
      else
        some ({ cam2 with gate := p.1 }, [])
    else
      some (cam2, [])

/-- Run `_camera_loop` over a list of frame inputs.  Returns the final state,
the concatenated action trace, and how many frames were processed before the
loop ended (the loop ends only at the first failed camera read, or when the
input list is exhausted). -/
def cameraRun (cam : CamState) : List FrameInput → CamState × List Act × Nat
  | [] => (cam, [], 0)
  | inp :: rest =>
    match cameraStep cam inp with
    | none => (cam, [], 0)
    | some (cam2, acts) =>
      let r := cameraRun cam2 rest
      (r.1, acts ++ r.2.1, r.2.2 + 1)

/-! ## Telegram command dispatch (src lines 165-231) -/

/-- `_send_current_photo` (src lines 221-231).  Under the lock, the frame is
encoded and sent only when `self.frame is not None`; when the buffer is empty
the `if` body is skipped and nothing at all happens.  The
`except` branch (which sends an "Error capturing photo" text) runs only when
an exception is raised while a frame exists, modelled by `encodeOk = false`. -/
def sendCurrentPhoto (frameBuf : Option Frame) (encodeOk : Bool) : List Act :=
  match frameBuf with
  | none => []
  | some _ => if encodeOk then [Act.sendPhoto] else [Act.sendText MsgTag.photoError]

/-- `_handle_telegram_command` (src lines 165-182): the five recognised
commands; anything else falls through silently.  Returns the new value of
`is_armed` and the trace of send actions. -/
def handleTelegramCommand (armed : Bool) (frameBuf : Option Frame)
    (encodeOk : Bool) (cmd : List Char) : Bool × List Act :=
  if cmd = "/arm".toList then (true, [Act.sendText MsgTag.armConf])
  else if cmd = "/disarm".toList then (false, [Act.sendText MsgTag.disarmConf])
  else if cmd = "/photo".toList then (armed, sendCurrentPhoto frameBuf encodeOk)
  else if cmd = "/status".toList then (armed, [Act.sendText MsgTag.statusReport])
  else if cmd = "/storage".toList then (armed, [Act.sendText MsgTag.storageReport])
  else (armed, [])

/-! ## Evidence files and filename date parsing (src lines 82-109) -/

/-- A directory entry of the evidence directory: the filename, the size in
bytes (`stat().st_size`) and the modification time (`stat().st_mtime`). -/
structure DirFile where
  name : List Char
  size : Nat
  mtime : Int
deriving DecidableEq

/-- The glob pattern `motion_*.jpg` used by both sweeps: the name begins with
`motion_`, ends with `.jpg`, and the two parts do not overlap. -/
def globMotionJpg (s : List Char) : Bool :=
  List.isPrefixOf "motion_".toList s && List.isSuffixOf ".jpg".toList s &&
    decide (11 ≤ s.length)

/-- Python `str.split('_')`: cut at every underscore, keeping empty pieces
(so `"motion_".split('_') = ["motion", ""]`). -/
def splitUnderscore : List Char → List (List Char)
  | [] => [[]]
  | c :: rest =>
    let r := splitUnderscore rest
    if c = '_' then [] :: r
    else
      match r with
      | [] => [[c]]
      | g :: gs => (c :: g) :: gs

/-- Numeric value of a decimal digit character. -/
def digitVal (c : Char) : Nat := c.toNat - 48

/-- `lo ≤ c ≤ hi` on characters, as a boolean. -/
def charBetween (lo c hi : Char) : Bool := decide (lo ≤ c) && decide (c ≤ hi)

/-- The alternatives of CPython's `%m` pattern `1[0-2]|0[1-9]|[1-9]`, in the
order the regex engine tries them, each with the unconsumed remainder. -/
def monthCands (cs : List Char) : List (Nat × List Char) :=
  (match cs with
   | c1 :: c2 :: rest =>
     (if c1 = '1' && charBetween '0' c2 '2' then [(10 + digitVal c2, rest)] else []) ++
     (if c1 = '0' && charBetween '1' c2 '9' then [(digitVal c2, rest)] else [])
   | _ => []) ++
  (match cs with
   | c1 :: rest => if charBetween '1' c1 '9' then [(digitVal c1, rest)] else []
   | _ => [])

/-- The alternatives of CPython's `%d` pattern `3[01]|[12]\d|0[1-9]|[1-9]`,
in the order the regex engine tries them. -/
def dayCands (cs : List Char) : List (Nat × List Char) :=
  (match cs with
   | c1 :: c2 :: rest =>
     (if c1 = '3' && charBetween '0' c2 '1' then [(30 + digitVal c2, rest)] else []) ++
     (if charBetween '1' c1 '2' && charBetween '0' c2 '9' then
        [(digitVal c1 * 10 + digitVal c2, rest)] else []) ++
     (if c1 = '0' && charBetween '1' c2 '9' then [(digitVal c2, rest)] else [])
   | _ => []) ++
  (match cs with
   | c1 :: rest => if charBetween '1' c1 '9' then [(digitVal c1, rest)] else []
   | _ => [])

/-- `datetime.strptime(s, '%Y%m%d')`'s pattern match: four digits of year,
then the first month/day alternative split (in backtracking order) that
consumes the whole string. -/
def parseYmdCore (cs : List Char) : Option (Nat × Nat × Nat) :=
  match cs with
  | y1 :: y2 :: y3 :: y4 :: rest =>
    if y1.isDigit && y2.isDigit && y3.isDigit && y4.isDigit then
      let y := digitVal y1 * 1000 + digitVal y2 * 100 + digitVal y3 * 10 + digitVal y4
      match ((monthCands rest).filterMap fun mc =>
          (((dayCands mc.2).filter fun dc => dc.2.isEmpty).head?).map
            fun dc => (mc.1, dc.1)).head? with
      | some (m, d) => some (y, m, d)
      | none => none
    else none
  | _ => none

/-- Gregorian leap year. -/
def isLeap (y : Nat) : Bool := (y % 4 = 0 && y % 100 ≠ 0) || y % 400 = 0

/-- Number of days in a month. -/
def daysInMonth (y m : Nat) : Nat :=
  if m = 2 then (if isLeap y then 29 else 28)
  else if m = 4 || m = 6 || m = 9 || m = 11 then 30
  else 31

/-- The validity check `datetime(y, m, d)` performs after the pattern match
(the month is already in 1..12 and the day in 1..31 by the pattern). -/
def validYmd (y m d : Nat) : Bool :=
  decide (1 ≤ y) && decide (1 ≤ d) && decide (d ≤ daysInMonth y m)

/-- Days from 1970-01-01 to the civil date `y-m-d` (`y ≥ 1`), by the standard
civil-from-days algorithm. -/
def daysFromCivil (y m d : Nat) : Int :=
  let y2 := if m ≤ 2 then y - 1 else y
  let era := y2 / 400
  let yoe := y2 % 400
  let mp := (m + 9) % 12
  let doy := (153 * mp + 2) / 5 + d - 1
  let doe := yoe * 365 + yoe / 4 - yoe / 100 + doy
  (era : Int) * 146097 + (doe : Int) - 719468

/-- The date extraction of `_cleanup_old_files` (src lines 90-92): take the
stem (the name without its `.jpg` suffix), split on underscores, take piece
index 1, run it through `strptime('%Y%m%d')` and the `datetime` validity
check.  Returns the midnight instant of the parsed date in seconds, or `none`
for any of the exceptions the `try` can swallow (missing piece, failed
pattern match, invalid date). -/
def parseMotionDate (name : List Char) : Option Int :=
  let stem := name.take (name.length - 4)
  match (splitUnderscore stem).drop 1 with
  | [] => none
  | seg :: _ =>
    match parseYmdCore seg with
    | some (y, m, d) =>
      if validYmd y m d then some (86400 * daysFromCivil y m d) else none
    | none => none

/-! ## Age sweep (src lines 82-109) -/

/-- `cutoff_date = datetime.now() - timedelta(days=max_days_to_keep)`. -/
def cutoffTime (now : Int) (maxDays : Nat) : Int := now - 86400 * (maxDays : Nat)

/-- The loop body of `_cleanup_old_files`: for each globbed file, parse the
filename date; delete the file (counting it and its bytes) iff the parsed
date is before the cutoff; any parse failure is swallowed by the `try` and the
file is left alone.  Files not matching the glob are never visited.  Returns
`(files_removed, cleaned_space, remaining directory)`. -/
def cleanupLoop (now : Int) (maxDays : Nat) : List DirFile → Nat × Nat × List DirFile
  | [] => (0, 0, [])
  | f :: rest =>
    let r := cleanupLoop now maxDays rest
    if globMotionJpg f.name then
      match parseMotionDate f.name with
      | some ts =>
        if ts < cutoffTime now maxDays then (r.1 + 1, r.2.1 + f.size, r.2.2)
        else (r.1, r.2.1, f :: r.2.2)
      | none => (r.1, r.2.1, f :: r.2.2)
    else (r.1, r.2.1, f :: r.2.2)

/-- `_cleanup_old_files` (src lines 82-109): the sweep plus the summary
message, which is sent iff `files_removed > 0`.  Result:
`(files_removed, cleaned_space, remaining directory, summary sent?)`. -/
def cleanupOldFiles (now : Int) (maxDays : Nat) (dir : List DirFile) :
    Nat × Nat × List DirFile × Bool :=
  let r := cleanupLoop now maxDays dir
  (r.1, r.2.1, r.2.2, decide (0 < r.1))

/-- Specification-side characterisation of the files the age sweep deletes: a
glob match whose filename date parses and lies strictly before the cutoff. -/
def oldMotionFile (now : Int) (maxDays : Nat) (f : DirFile) : Bool :=
  globMotionJpg f.name &&
    match parseMotionDate f.name with
    | some ts => decide (ts < cutoffTime now maxDays)
    | none => false

/-! ## Emergency sweep (src lines 111-144) -/

/-- The sort key of `_emergency_cleanup`: modification time, ascending. -/
def mtimeLe (a b : DirFile) : Prop := a.mtime ≤ b.mtime

instance : DecidableRel mtimeLe :=
  fun a b => inferInstanceAs (Decidable (a.mtime ≤ b.mtime))

instance : IsTotal DirFile mtimeLe := ⟨fun a b => Int.le_total a.mtime b.mtime⟩

instance : IsTrans DirFile mtimeLe := ⟨fun _ _ _ => Int.le_trans⟩

/-- `sorted(self.output_dir.glob('motion_*.jpg'), key=... st_mtime)`:
a stable sort of the glob matches by modification time. -/
def sortByMtime (files : List DirFile) : List DirFile :=
  List.insertionSort mtimeLe files

/-- The deletion loop of `_emergency_cleanup` (src lines 124-131): walk the
files oldest-first; before each deletion re-check the free space and stop as
soon as it reaches the threshold; deleting a file adds its size to the free
space.  Free space and the threshold are in the same abstract units.
Returns `(final free space, deleted files in order, files not visited)`. -/
def emergencyLoop (minFree : Nat) : Nat → List DirFile → Nat × List DirFile × List DirFile
  | free, [] => (free, [], [])
  | free, f :: rest =>
    if minFree ≤ free then (free, [], f :: rest)
    else
      let r := emergencyLoop minFree (free + f.size) rest
      (r.1, f :: r.2.1, r.2.2)

/-- `_emergency_cleanup` (src lines 111-144): sort the glob matches by
modification time and run the deletion loop. -/
def emergencyCleanup (minFree free : Nat) (dir : List DirFile) :
    Nat × List DirFile × List DirFile :=
  emergencyLoop minFree free (sortByMtime (dir.filter fun f => globMotionJpg f.name))

/-- Every file in the list was deleted at a moment when free space was still
strictly below the threshold (free space grows by each deleted size). -/
def belowThresholdThroughout (minFree : Nat) : Nat → List DirFile → Bool
  | _, [] => true
  | free, f :: rest =>
    decide (free < minFree) && belowThresholdThroughout minFree (free + f.size) rest

/-! ## Concrete data used by the witnesses -/

/-- Evidence file dated `2024-06-04` (11 days before the witness instant's
date `2024-06-15`). -/
def fOldW : DirFile := ⟨"motion_20240604_120000.jpg".toList, 1000, 50⟩

/-- Evidence file dated `2024-06-06` (9 days before the witness instant's
date). -/
def fNewW : DirFile := ⟨"motion_20240606_000000.jpg".toList, 2000, 60⟩

/-- Evidence file with the date segment missing: its stem `motion_` splits
into `["motion", ""]` and `strptime` fails on the empty piece. -/
def fBadW : DirFile := ⟨"motion_.jpg".toList, 7, 3⟩

/-- A file in the evidence directory that does not match `motion_*.jpg`. -/
def fOtherW : DirFile := ⟨"readme.txt".toList, 5, 1⟩

/-- Glob-matching evidence file, 20 bytes, modification time 5. -/
def fAW : DirFile := ⟨"motion_a.jpg".toList, 20, 5⟩

/-- Glob-matching evidence file, 9 bytes, modification time 2 (the oldest). -/
def fBW : DirFile := ⟨"motion_b.jpg".toList, 9, 2⟩

/-- The witness instant: one hour into `2024-06-15`
(day 19889 since 1970-01-01). -/
def nowW : Int := 86400 * 19889 + 3600

/-- `b` is more than one cooldown after `a`. -/
def gapGT (a b : Int) : Prop := notificationCooldown < b - a

instance : IsTrans Int gapGT :=
  ⟨by intro a b c hab hbc; simp only [gapGT, notificationCooldown] at *; omega⟩

/-! ## Gate lemmas -/

theorem gateStep_eq_fire {s : GateState} {t : Int}
    (h2 : s.motionDetected = false)
    (h3 : notificationCooldown < t - s.lastNotificationTime) :
    gateStep s t true = (⟨true, t⟩, true) := by
  simp [gateStep, h2, h3]

theorem gateStep_eq_clear {s : GateState} {t : Int} :
    gateStep s t false = (⟨false, s.lastNotificationTime⟩, false) := by
  simp [gateStep]

theorem gateStep_eq_hold {s : GateState} {t : Int}
    (h2 : s.motionDetected = true ∨ t - s.lastNotificationTime ≤ notificationCooldown) :
    gateStep s t true = (s, false) := by
  rcases h2 with h2 | h2
  · simp [gateStep, h2]
  · simp [gateStep, not_lt.mpr h2]

theorem gateRun_chain (frames : List (Int × Bool)) : ∀ s : GateState,
    List.Chain' gapGT (s.lastNotificationTime :: (gateRun s frames).2) := by
  induction frames with
  | nil => intro s; simp [gateRun]
  | cons f rest ih =>
    intro s
    obtain ⟨t, m⟩ := f
    cases m with
    | false =>
      have hs : gateStep s t false = (⟨false, s.lastNotificationTime⟩, false) :=
        gateStep_eq_clear
      simp only [gateRun, hs, if_neg Bool.false_ne_true]
      exact ih ⟨false, s.lastNotificationTime⟩
    | true =>
      by_cases hmd : s.motionDetected = true
      · have hs := gateStep_eq_hold (s := s) (t := t) (Or.inl hmd)
        simp only [gateRun, hs, if_neg Bool.false_ne_true]
        exact ih s
      · have hmd' : s.motionDetected = false := by simpa using hmd
        by_cases hc : notificationCooldown < t - s.lastNotificationTime
        · have hs := gateStep_eq_fire hmd' hc
          simp only [gateRun, hs, if_pos rfl]
          exact List.chain'_cons.mpr ⟨hc, ih ⟨true, t⟩⟩
        · have hs := gateStep_eq_hold (s := s) (t := t) (Or.inr (not_lt.mp hc))
          simp only [gateRun, hs, if_neg Bool.false_ne_true]
          exact ih s

theorem gateRun_latched : ∀ (ts : List Int) (s : GateState),
    s.motionDetected = true → gateRun s (ts.map fun u => (u, true)) = (s, []) := by
  intro ts
  induction ts with
  | nil => intro s _; rfl
  | cons u rest ih =>
    intro s h
    simp only [List.map_cons, gateRun, gateStep, h]
    simp [ih s h]

/-- Claim C2: for every finite sequence of `(time, raw signal)` frames, any
two events emitted by the alert gate are separated by strictly more than the
cooldown (60 seconds): the fired times are pairwise more than one cooldown
apart, in order. -/
theorem alert_gate_cooldown_separation (s : GateState) (frames : List (Int × Bool)) :
    ((gateRun s frames).2).Pairwise gapGT :=
  List.chain'_iff_pairwise.mp (gateRun_chain frames s).tail

/-- Claim C3: a contiguous run of true raw signals whose first frame arrives
with the latch clear and with strictly more than the cooldown elapsed since
the last fire emits exactly one event, on its first frame, whatever the run's
length; in particular the raw sequence `[F,F,T,T,T,F,F]` (cooldown already
elapsed) yields exactly the one event fired on the third frame. -/
theorem alert_gate_one_event_per_run (s : GateState) (t : Int) (ts : List Int)
    (hIdle : s.motionDetected = false)
    (hCool : notificationCooldown < t - s.lastNotificationTime) :
    (gateStep s t true).2 = true ∧
    (gateRun s ((t, true) :: ts.map fun u => (u, true))).2 = [t] ∧
    (gateRun initGate [(100, false), (101, false), (102, true), (103, true),
        (104, true), (105, false), (106, false)]).2 = [102] := by
  have hfire : gateStep s t true =
      ({ motionDetected := true, lastNotificationTime := t }, true) := by
    simp [gateStep, hIdle, hCool]
  refine ⟨by rw [hfire], ?_, by decide⟩
  simp only [gateRun, hfire]
  simp [gateRun_latched ts ⟨true, t⟩ rfl]

/-- Witness for C3 at a concrete idle state, fire time and run. -/
theorem alert_gate_one_event_per_run_w :
    (GateState.mk false 0).motionDetected = false ∧
    notificationCooldown < 100 - (GateState.mk false 0).lastNotificationTime ∧
    ((gateStep (GateState.mk false 0) 100 true).2 = true ∧
     (gateRun (GateState.mk false 0)
        ((100, true) :: [101, 102].map fun u => (u, true))).2 = [100] ∧
     (gateRun initGate [(100, false), (101, false), (102, true), (103, true),
        (104, true), (105, false), (106, false)]).2 = [102]) :=
  ⟨by decide, by decide,
   alert_gate_one_event_per_run (GateState.mk false 0) 100 [101, 102]
     (by decide) (by decide)⟩

/-- Counterexample to claim C1 as stated: after an event fires at time 100,
the rising edge at time 130 falls within the 60-second cooldown (elapsed 30)
and is suppressed — but because the suppressed edge leaves `motion_detected`
unlatched, the same contiguous run of true signals fires an event at time 170
once the cooldown has elapsed, so the remainder of the run does NOT stay
silent. -/
theorem gate_edge_refires_after_cooldown_cex :
    (gateRun initGate [(100, true), (110, false), (130, true), (170, true)]).2
        = [100, 170] ∧
    (gateRun initGate [(100, true), (110, false), (130, true), (170, true)]).2
        ≠ [100] := by
  exact ⟨by decide, by decide⟩

/-- Claim C1 as amended: a rising edge within the cooldown emits no event and
queues nothing, and it leaves the gate state entirely unchanged — in
particular the in-motion latch stays clear, so a later true frame of the same
run fires as soon as strictly more than the cooldown has elapsed since the
last fire. -/
theorem gate_cooldown_edge_suppressed_not_latched (s : GateState) (t t' : Int)
    (hIdle : s.motionDetected = false)
    (hIn : t - s.lastNotificationTime ≤ notificationCooldown)
    (hOut : notificationCooldown < t' - s.lastNotificationTime) :
    gateStep s t true = (s, false) ∧ (gateStep s t' true).2 = true := by
  obtain ⟨md, lt⟩ := s
  simp only at hIdle
  subst hIdle
  constructor
  · have hnot : ¬ notificationCooldown < t - lt := not_lt.mpr hIn
    simp [gateStep, hnot]
  · simp [gateStep, hOut]

/-! ## Event path and camera loop lemmas -/

theorem handleMotionDetection_events_mono (s : SysState) (now : Int) (ok : Bool) :
    s.eventsToday ≤ (handleMotionDetection s now ok).1.eventsToday := by
  cases ok <;> simp [handleMotionDetection, sendTelegramNotification]

theorem cameraStep_events_mono (cam : CamState) (inp : FrameInput)
    (p : CamState × List Act) (h : cameraStep cam inp = some p) :
    cam.sys.eventsToday ≤ p.1.sys.eventsToday := by
  unfold cameraStep at h
  cases hr : inp.read with
  | none => rw [hr] at h; exact absurd h (by simp)
  | some fr =>
    rw [hr] at h
    dsimp only at h
    by_cases ha : inp.armed
    · rw [if_pos ha] at h
      by_cases hf : (gateStep cam.gate inp.time inp.motion).2 = true
      · rw [if_pos hf] at h
        cases h
        exact handleMotionDetection_events_mono _ _ _
      · rw [if_neg hf] at h
        cases h
        exact le_refl _
    · rw [if_neg ha] at h
      cases h
      exact le_refl _

theorem cameraRun_events_mono (inputs : List FrameInput) : ∀ cam : CamState,
    cam.sys.eventsToday ≤ (cameraRun cam inputs).1.sys.eventsToday := by
  induction inputs with
  | nil => intro cam; exact le_refl _
  | cons inp rest ih =>
    intro cam
    simp only [cameraRun]
    cases hr : cameraStep cam inp with
    | none => exact le_refl _
    | some p =>
      exact le_trans (cameraStep_events_mono cam inp p hr) (ih p.1)

/-- Counterexample to claim C4 as stated: for a fired event whose
notification body raises at `open(image_path)` (`openOk = false`), the
exception handler of `send_telegram_notification` swallows the error after
the text alert was attempted, and `events_today` is NOT incremented and
`last_event_time` is NOT set for that fired event. -/
theorem events_today_skipped_on_failure_cex :
    (handleMotionDetection ⟨5, none⟩ 1000 false).1.eventsToday = 5 ∧
    (handleMotionDetection ⟨5, none⟩ 1000 false).1.lastEventTime = none ∧
    (handleMotionDetection ⟨5, none⟩ 1000 false).2 =
      [Act.saveImage, Act.sendText MsgTag.motionAlert] := by
  exact ⟨by decide, by decide, by decide⟩

/-- Claim C4 as amended: for every fired event whose notification body
completes without raising, `events_today` increments by exactly one and
`last_event_time` is set to the event time, and in the action trace the
increment comes after the evidence frame is persisted and after both the text
alert and the photo are handed off; if the body raises before the increment
(the evidence file cannot be opened), the counters are left unchanged for
that event; and `events_today` never decreases, neither across a single
event-handling call nor across any run of the camera loop. -/
theorem events_today_increment_order (s : SysState) (now : Int) (cam : CamState)
    (inputs : List FrameInput) :
    (handleMotionDetection s now true).1.eventsToday = s.eventsToday + 1 ∧
    (handleMotionDetection s now true).1.lastEventTime = some now ∧
    (handleMotionDetection s now true).2 =
      [Act.saveImage, Act.sendText MsgTag.motionAlert, Act.sendPhoto, Act.incrEvents] ∧
    (handleMotionDetection s now false).1 = s ∧
    s.eventsToday ≤ (handleMotionDetection s now false).1.eventsToday ∧
    cam.sys.eventsToday ≤ (cameraRun cam inputs).1.sys.eventsToday := by
  refine ⟨rfl, rfl, rfl, rfl, le_refl _, cameraRun_events_mono inputs cam⟩

/-- Claim C9: no failure of evidence persistence or of the notification path
ever ends the capture loop.  Whatever the per-frame failure flags are, the
loop processes exactly the frames up to the first failed camera read (the
only way an iteration can `break`), and so continues past any event-path
failure to the subsequent frames. -/
theorem camera_loop_survives_failures (cam : CamState) (inputs : List FrameInput) :
    (cameraRun cam inputs).2.2 = (inputs.takeWhile fun i => i.read.isSome).length := by
  induction inputs generalizing cam with
  | nil => rfl
  | cons inp rest ih =>
    cases hr : inp.read with
    | none =>
      have hstep : cameraStep cam inp = none := by
        unfold cameraStep
        rw [hr]
      simp [cameraRun, hstep, List.takeWhile, hr]
    | some fr =>
      have hstep : ∃ p, cameraStep cam inp = some p := by
        unfold cameraStep
        rw [hr]
        dsimp only
        by_cases ha : inp.armed
        · rw [if_pos ha]
          by_cases hf : (gateStep cam.gate inp.time inp.motion).2 = true
          · rw [if_pos hf]; exact ⟨_, rfl⟩
          · rw [if_neg hf]; exact ⟨_, rfl⟩
        · rw [if_neg ha]; exact ⟨_, rfl⟩
      obtain ⟨p, hp⟩ := hstep
      simp [cameraRun, hp, List.takeWhile, hr, ih p.1]

/-- Counterexample to claim C8 as stated: when the `/photo` command arrives
and no frame has been captured yet, the handler not only skips the capture
and send — it also sends nothing at all through the message sink (the body of
`_send_current_photo` is one `if self.frame is not None:` and the empty
buffer simply skips it; no exception is raised, so the error-notice branch
never runs). -/
theorem photo_command_no_error_notice_cex :
    handleTelegramCommand true none true "/photo".toList = (true, []) ∧
    handleTelegramCommand true none false "/photo".toList = (true, []) := by
  exact ⟨by decide, by decide⟩

/-- Claim C8 as amended: on the photo command with an empty frame buffer the
handler performs no capture or send and emits no message at all (a silent
no-op); the "Error capturing photo" notice is sent only when an exception
occurs while a frame does exist. -/
theorem photo_command_empty_buffer_silent (armed eOk : Bool) (fr : Frame) :
    handleTelegramCommand armed none eOk "/photo".toList = (armed, []) ∧
    sendCurrentPhoto none eOk = [] ∧
    sendCurrentPhoto (some fr) false = [Act.sendText MsgTag.photoError] := by
  exact ⟨rfl, rfl, rfl⟩

/-- Witness for the amended C1 at a concrete state and pair of edge times. -/
theorem gate_cooldown_edge_suppressed_not_latched_w :
    (GateState.mk false 100).motionDetected = false ∧
    (130 : Int) - (GateState.mk false 100).lastNotificationTime ≤ notificationCooldown ∧
    notificationCooldown < (170 : Int) - (GateState.mk false 100).lastNotificationTime ∧
    (gateStep (GateState.mk false 100) 130 true = (GateState.mk false 100, false) ∧
     (gateStep (GateState.mk false 100) 170 true).2 = true) :=
  ⟨by decide, by decide, by decide,
   gate_cooldown_edge_suppressed_not_latched (GateState.mk false 100) 130 170
     (by decide) (by decide) (by decide)⟩

/-! ## Retention lemmas -/

theorem cleanupLoop_eq (now : Int) (maxDays : Nat) : ∀ dir : List DirFile,
    cleanupLoop now maxDays dir =
      ((dir.filter (oldMotionFile now maxDays)).length,
       ((dir.filter (oldMotionFile now maxDays)).map DirFile.size).sum,
       dir.filter fun f => !(oldMotionFile now maxDays f)) := by
  intro dir
  induction dir with
  | nil => rfl
  | cons f rest ih =>
    by_cases hg : globMotionJpg f.name = true
    · cases hp : parseMotionDate f.name with
      | some ts =>
        by_cases hlt : ts < cutoffTime now maxDays
        · simp [cleanupLoop, ih, oldMotionFile, hg, hp, hlt, List.filter_cons]
          omega
        · simp [cleanupLoop, ih, oldMotionFile, hg, hp, hlt, List.filter_cons]
      | none => simp [cleanupLoop, ih, oldMotionFile, hg, hp, List.filter_cons]
    · have hg2 : globMotionJpg f.name = false := by simpa using hg
      simp [cleanupLoop, ih, oldMotionFile, hg2, List.filter_cons]

theorem emergencyLoop_spec (minFree : Nat) (l : List DirFile) : ∀ free : Nat,
    (emergencyLoop minFree free l).2.1 ++ (emergencyLoop minFree free l).2.2 = l ∧
    belowThresholdThroughout minFree free (emergencyLoop minFree free l).2.1 = true ∧
    (emergencyLoop minFree free l).1 =
      free + (((emergencyLoop minFree free l).2.1).map DirFile.size).sum ∧
    (minFree ≤ (emergencyLoop minFree free l).1 ∨
      (emergencyLoop minFree free l).2.2 = []) := by
  induction l with
  | nil =>
    intro free
    simp [emergencyLoop, belowThresholdThroughout]
  | cons f rest ih =>
    intro free
    by_cases h : minFree ≤ free
    · simp [emergencyLoop, h, belowThresholdThroughout]
    · obtain ⟨h1, h2, h3, h4⟩ := ih (free + f.size)
      simp only [emergencyLoop, if_neg h]
      refine ⟨by simpa using h1, ?_, ?_, ?_⟩
      · simp [belowThresholdThroughout, Nat.lt_of_not_le h, h2]
      · simp only [List.map_cons, List.sum_cons]
        omega
      · exact h4

/-- Claim C5: when free space is below the threshold, the emergency sweep
deletes a leading segment of the glob matches sorted by modification time
(oldest-first), every deletion happens at a moment when free space is still
strictly below the threshold (it is re-checked before each deletion, so the
sweep never over-deletes once the threshold is met), each deletion frees the
file's size, and the sweep stops only once free space reaches the threshold
or no candidate files remain. -/
theorem emergency_sweep_oldest_first_stops (minFree free : Nat) (dir : List DirFile)
    (_hlow : free < minFree) :
    (emergencyCleanup minFree free dir).2.1 ++ (emergencyCleanup minFree free dir).2.2
        = sortByMtime (dir.filter fun f => globMotionJpg f.name) ∧
    ((emergencyCleanup minFree free dir).2.1).Pairwise mtimeLe ∧
    belowThresholdThroughout minFree free (emergencyCleanup minFree free dir).2.1 = true ∧
    (emergencyCleanup minFree free dir).1 =
      free + (((emergencyCleanup minFree free dir).2.1).map DirFile.size).sum ∧
    (minFree ≤ (emergencyCleanup minFree free dir).1 ∨
      (emergencyCleanup minFree free dir).2.2 = []) := by
  obtain ⟨h1, h2, h3, h4⟩ :=
    emergencyLoop_spec minFree (sortByMtime (dir.filter fun f => globMotionJpg f.name)) free
  refine ⟨h1, ?_, h2, h3, h4⟩
  have hsorted : List.Sorted mtimeLe (sortByMtime (dir.filter fun f => globMotionJpg f.name)) :=
    List.sorted_insertionSort mtimeLe _
  have hsub : List.Sublist (emergencyCleanup minFree free dir).2.1
      (sortByMtime (dir.filter fun f => globMotionJpg f.name)) := by
    conv_rhs => rw [← h1]
    exact List.sublist_append_left _ _
  exact hsorted.sublist hsub

/-- Witness for C5: free space 3 below threshold 10; of the two candidates
the older (mtime 2, 9 bytes) is deleted first, which lifts free space to 12,
and the sweep stops without touching the newer file. -/
theorem emergency_sweep_oldest_first_stops_w :
    3 < 10 ∧
    ((emergencyCleanup 10 3 [fAW, fBW]).2.1 ++ (emergencyCleanup 10 3 [fAW, fBW]).2.2
        = sortByMtime ([fAW, fBW].filter fun f => globMotionJpg f.name) ∧
     ((emergencyCleanup 10 3 [fAW, fBW]).2.1).Pairwise mtimeLe ∧
     belowThresholdThroughout 10 3 (emergencyCleanup 10 3 [fAW, fBW]).2.1 = true ∧
     (emergencyCleanup 10 3 [fAW, fBW]).1 =
       3 + (((emergencyCleanup 10 3 [fAW, fBW]).2.1).map DirFile.size).sum ∧
     (10 ≤ (emergencyCleanup 10 3 [fAW, fBW]).1 ∨
       (emergencyCleanup 10 3 [fAW, fBW]).2.2 = [])) :=
  ⟨by decide, emergency_sweep_oldest_first_stops 10 3 [fAW, fBW] (by decide)⟩

/-- Claim C6: the age sweep removes exactly the glob matches whose
filename-embedded date parses and is strictly older than `maxDays` before
`now`, keeps every other file, and sends the summary message iff at least one
file was removed; in particular a file dated `maxDays + 1` days before
`now`'s calendar date is removed and a file dated `maxDays - 1` days before
it is kept. -/
theorem age_sweep_deletes_exactly_old (now : Int) (maxDays : Nat) (dir : List DirFile) :
    (cleanupOldFiles now maxDays dir).1 = (dir.filter (oldMotionFile now maxDays)).length ∧
    (cleanupOldFiles now maxDays dir).2.1 =
      ((dir.filter (oldMotionFile now maxDays)).map DirFile.size).sum ∧
    (cleanupOldFiles now maxDays dir).2.2.1 =
      (dir.filter fun f => !(oldMotionFile now maxDays f)) ∧
    ((cleanupOldFiles now maxDays dir).2.2.2 = true ↔
      dir.filter (oldMotionFile now maxDays) ≠ []) ∧
    (∀ f ∈ dir, globMotionJpg f.name = true →
      parseMotionDate f.name = some (86400 * (now / 86400 - ((maxDays : Int) + 1))) →
      f ∉ (cleanupOldFiles now maxDays dir).2.2.1) ∧
    (∀ f ∈ dir,
      parseMotionDate f.name = some (86400 * (now / 86400 - ((maxDays : Int) - 1))) →
      f ∈ (cleanupOldFiles now maxDays dir).2.2.1) := by
  refine ⟨?_, ?_, ?_, ?_, ?_, ?_⟩
  · simp [cleanupOldFiles, cleanupLoop_eq]
  · simp [cleanupOldFiles, cleanupLoop_eq]
  · simp [cleanupOldFiles, cleanupLoop_eq]
  · simp only [cleanupOldFiles, cleanupLoop_eq]
    simp [List.length_pos]
  · intro f hf hg hp
    have hts : (86400 * (now / 86400 - ((maxDays : Int) + 1))) < cutoffTime now maxDays := by
      simp only [cutoffTime]
      omega
    have hold : oldMotionFile now maxDays f = true := by
      simp [oldMotionFile, hg, hp, hts]
    simp [cleanupOldFiles, cleanupLoop_eq, List.mem_filter, hold]
  · intro f hf hp
    have hts : ¬ (86400 * (now / 86400 - ((maxDays : Int) - 1))) < cutoffTime now maxDays := by
      simp only [cutoffTime]
      omega
    have hold : oldMotionFile now maxDays f = false := by
      simp [oldMotionFile, hp, hts]
    simp [cleanupOldFiles, cleanupLoop_eq, List.mem_filter, hf, hold]

/-- Witness for C6: with `now` one hour into 2024-06-15 and a 10-day
retention, the file dated 2024-06-04 (11 days old) is removed and the file
dated 2024-06-06 (9 days old) is kept. -/
theorem age_sweep_deletes_exactly_old_w :
    fOldW ∉ (cleanupOldFiles nowW 10 [fOldW, fNewW]).2.2.1 ∧
    fNewW ∈ (cleanupOldFiles nowW 10 [fOldW, fNewW]).2.2.1 :=
  ⟨(age_sweep_deletes_exactly_old nowW 10 [fOldW, fNewW]).2.2.2.2.1 fOldW
      (by decide) (by decide) (by decide),
   (age_sweep_deletes_exactly_old nowW 10 [fOldW, fNewW]).2.2.2.2.2 fNewW
      (by decide) (by decide)⟩

/-- Claim C7: a file whose name does not parse into a date is skipped by the
age sweep — it stays in the directory, contributes nothing to the removal
count or freed bytes, and the sweep of the files around it is exactly what it
would have been without it. -/
theorem age_sweep_skips_unparseable (now : Int) (maxDays : Nat)
    (l1 l2 : List DirFile) (bad : DirFile)
    (hbad : parseMotionDate bad.name = none) :
    bad ∈ (cleanupOldFiles now maxDays (l1 ++ bad :: l2)).2.2.1 ∧
    (cleanupOldFiles now maxDays (l1 ++ bad :: l2)).1 =
      (cleanupOldFiles now maxDays (l1 ++ l2)).1 ∧
    (cleanupOldFiles now maxDays (l1 ++ bad :: l2)).2.1 =
      (cleanupOldFiles now maxDays (l1 ++ l2)).2.1 ∧
    (cleanupOldFiles now maxDays (l1 ++ bad :: l2)).2.2.1 =
      (cleanupOldFiles now maxDays l1).2.2.1 ++
        bad :: (cleanupOldFiles now maxDays l2).2.2.1 := by
  have hold : oldMotionFile now maxDays bad = false := by
    simp [oldMotionFile, hbad]
  refine ⟨?_, ?_, ?_, ?_⟩
  · simp [cleanupOldFiles, cleanupLoop_eq, List.mem_filter, hold]
  · simp [cleanupOldFiles, cleanupLoop_eq, List.filter_append, hold]
  · simp [cleanupOldFiles, cleanupLoop_eq, List.filter_append, hold]
  · simp [cleanupOldFiles, cleanupLoop_eq, List.filter_append, hold]

/-- Witness for C7: `motion_.jpg` (missing date segment) sits between a
deletable old file and a kept young file; it is kept, not counted, and the
others are swept exactly as without it. -/
theorem age_sweep_skips_unparseable_w :
    parseMotionDate fBadW.name = none ∧
    (fBadW ∈ (cleanupOldFiles nowW 10 ([fOldW] ++ fBadW :: [fNewW])).2.2.1 ∧
     (cleanupOldFiles nowW 10 ([fOldW] ++ fBadW :: [fNewW])).1 =
       (cleanupOldFiles nowW 10 ([fOldW] ++ [fNewW])).1 ∧
     (cleanupOldFiles nowW 10 ([fOldW] ++ fBadW :: [fNewW])).2.1 =
       (cleanupOldFiles nowW 10 ([fOldW] ++ [fNewW])).2.1 ∧
     (cleanupOldFiles nowW 10 ([fOldW] ++ fBadW :: [fNewW])).2.2.1 =
       (cleanupOldFiles nowW 10 [fOldW]).2.2.1 ++
         fBadW :: (cleanupOldFiles nowW 10 [fNewW]).2.2.1) :=
  ⟨by decide, age_sweep_skips_unparseable nowW 10 [fOldW] [fNewW] fBadW (by decide)⟩

/-- Claim C10: both sweeps enumerate only `motion_*.jpg` files: a directory
entry not matching the glob survives the age sweep and is never deleted by
the emergency sweep, and when no glob matches exist the emergency sweep
terminates at once with free space unchanged (possibly still below the
threshold). -/
theorem retention_sweeps_only_motion_files (now : Int) (maxDays minFree free : Nat)
    (dir : List DirFile) (f : DirFile) (hf : f ∈ dir)
    (hglob : globMotionJpg f.name = false) :
    f ∈ (cleanupOldFiles now maxDays dir).2.2.1 ∧
    f ∉ (emergencyCleanup minFree free dir).2.1 ∧
    ((dir.filter fun g => globMotionJpg g.name) = [] →
      emergencyCleanup minFree free dir = (free, [], [])) := by
  refine ⟨?_, ?_, ?_⟩
  · have hold : oldMotionFile now maxDays f = false := by
      simp [oldMotionFile, hglob]
    simp [cleanupOldFiles, cleanupLoop_eq, List.mem_filter, hf, hold]
  · intro hmem
    have h1 :=
      (emergencyLoop_spec minFree (sortByMtime (dir.filter fun g => globMotionJpg g.name)) free).1
    have hs : f ∈ sortByMtime (dir.filter fun g => globMotionJpg g.name) := by
      rw [← h1]
      exact List.mem_append_left _ hmem
    have hd : f ∈ dir.filter fun g => globMotionJpg g.name :=
      (List.perm_insertionSort mtimeLe _).mem_iff.mp hs
    simp [List.mem_filter, hglob] at hd
  · intro hempty
    unfold emergencyCleanup
    rw [hempty]
    rfl

/-- Witness for C10: `readme.txt` alongside a `motion_*.jpg` file survives
both sweeps, and a directory with no glob matches leaves the emergency sweep
with free space unchanged. -/
theorem retention_sweeps_only_motion_files_w :
    fOtherW ∈ ([fOtherW, fAW] : List DirFile) ∧
    globMotionJpg fOtherW.name = false ∧
    (fOtherW ∈ (cleanupOldFiles nowW 10 [fOtherW, fAW]).2.2.1 ∧
     fOtherW ∉ (emergencyCleanup 10 3 [fOtherW, fAW]).2.1 ∧
     (([fOtherW, fAW].filter fun g => globMotionJpg g.name) = [] →
       emergencyCleanup 10 3 [fOtherW, fAW] = (3, [], []))) :=
  ⟨by decide, by decide,
   retention_sweeps_only_motion_files nowW 10 10 3 [fOtherW, fAW] fOtherW
     (by decide) (by decide)⟩

end SecCam
